import Mathlib

/-!
Shallow embedding of the multi-tenant MCP connection manager of
telegram-mcp-client (src/mcp/mcpClientManager.ts, src/gemini/mapping.ts)
and proofs about its specification claims.

Strings are modelled by Lean `String` (a list of characters); JavaScript
`String.prototype.split` / `Array.prototype.join` are modelled by explicit
recursive functions on `List Char`.  JavaScript `Map` objects are modelled
by association lists with JS `Map` semantics (`set` replaces in place or
appends, iteration in insertion order).  Asynchronous effects are modelled
by explicit state passing plus an event log; outcomes of external calls
(connect, close, listTools) are supplied by an environment record.
-/

namespace McpModel

/-! ## JavaScript string splitting and joining

`splitOnChar sep l` models `str.split(sep)` for a one-character separator:
`"".split(s)` is `[""]`, and empty segments are retained. -/

def splitOnChar (sep : Char) : List Char → List (List Char)
  | [] => [[]]
  | c :: cs =>
    let rest := splitOnChar sep cs
    if c = sep then
      [] :: rest
    else
      match rest with
      | [] => [[c]]
      | r :: rs => (c :: r) :: rs

/-- Models `parts.join(sep)` for a one-character separator. -/
def joinChar (sep : Char) : List (List Char) → List Char
  | [] => []
  | [x] => x
  | x :: xs => x ++ sep :: joinChar sep xs

/-! ## Qualified tool names

The catalog emits the qualified name as the template literal
(tool.name)_(serverName); `callTool` decodes it by splitting on the
underscore, popping the last segment as the server name and rejoining the
remainder (mcpClientManager.ts lines 244-249). -/

/-- Decoding of a qualified tool name exactly as `callTool` performs it:
split on the underscore; if fewer than two segments the name is rejected;
otherwise the popped last segment is the server name and the rejoined
remainder is the original tool name.  Returns `(mcpToolName, serverName)`. -/
def callToolDecode (geminiToolName : String) : Option (String × String) :=
  let parts := splitOnChar '_' geminiToolName.data
  if parts.length < 2 then none
  else some (String.mk (joinChar '_' parts.dropLast), String.mk (parts.getLastD []))

/-! ## Gemini tool mapping  (src/gemini/mapping.ts)

JSON Schema objects are modelled by a recursive inductive type; every field
the mapper reads is `Option`-valued because the corresponding JavaScript
field may be `undefined`.  `McpTool.inputSchema` is itself optional: a
broken server may send a tool without one, in which case the JavaScript
body throws a `TypeError` on the first property access — modelled by the
`Except` result of `mapToolBody`. -/

inductive SchemaObj where
  | mk (type : Option String) (description : Option String)
       (required : Option (List String)) (enum : Option (List String))
       (properties : Option (List (String × SchemaObj)))
       (items : Option SchemaObj)

def SchemaObj.type : SchemaObj → Option String
  | .mk t _ _ _ _ _ => t

def SchemaObj.description : SchemaObj → Option String
  | .mk _ d _ _ _ _ => d

def SchemaObj.required : SchemaObj → Option (List String)
  | .mk _ _ r _ _ _ => r

def SchemaObj.enum : SchemaObj → Option (List String)
  | .mk _ _ _ e _ _ => e

def SchemaObj.properties : SchemaObj → Option (List (String × SchemaObj))
  | .mk _ _ _ _ p _ => p

def SchemaObj.items : SchemaObj → Option SchemaObj
  | .mk _ _ _ _ _ i => i

structure McpTool where
  name : String
  description : Option String
  inputSchema : Option SchemaObj

/-- Gemini API `Type` enum. -/
inductive GType where
  | STRING | NUMBER | INTEGER | BOOLEAN | ARRAY | OBJECT
deriving DecidableEq, Repr

structure GeminiProp where
  type : GType
  description : Option String
  enum : Option (List String)
deriving DecidableEq, Repr

structure GeminiParameters where
  type : GType
  description : Option String
  required : Option (List String)
  enum : Option (List String)
  properties : Option (List (String × GeminiProp))
  items : Option GeminiProp
deriving DecidableEq, Repr

structure FunctionDeclaration where
  name : String
  description : String
  parameters : GeminiParameters
deriving DecidableEq, Repr

/-- `switch` over the JSON Schema type string; unknown or absent types fall
through to the `default` branch and map to `STRING`. -/
def mapJsonSchemaTypeToGeminiType (schemaType : Option String) : GType :=
  match schemaType with
  | some t =>
    if t = "string" then .STRING
    else if t = "number" then .NUMBER
    else if t = "integer" then .INTEGER
    else if t = "boolean" then .BOOLEAN
    else if t = "array" then .ARRAY
    else if t = "object" then .OBJECT
    else .STRING
  | none => .STRING

def mapJsonSchemaPropertiesToGeminiParameterProps
    (properties : List (String × SchemaObj)) : List (String × GeminiProp) :=
  properties.map fun p =>
    (p.1, { type := mapJsonSchemaTypeToGeminiType p.2.type
            description := p.2.description
            enum := p.2.enum })

def mapJsonSchemaItemsToGeminiParameterItems (items : SchemaObj) : GeminiProp :=
  { type := mapJsonSchemaTypeToGeminiType items.type
    description := items.description
    enum := items.enum }

/-- The `try` body of `mapMcpToolToGeminiFunctionDeclaration`.  The one
throw avenue of the body in scope of the model is a tool whose
`inputSchema` is absent: the first property access
(`inputSchema.type`) then throws a `TypeError`. -/
def mapToolBody (tool : McpTool) (serverName : String) :
    Except String FunctionDeclaration :=
  match tool.inputSchema with
  | none => .error "Cannot read properties of undefined (reading type)"
  | some inputSchema =>
    let geminiParameters : GeminiParameters :=
      { type := mapJsonSchemaTypeToGeminiType inputSchema.type
        description := inputSchema.description
        -- required := inputSchema.required || []  then deleted when empty
        required :=
          match inputSchema.required.getD [] with
          | [] => none
          | l => some l
        -- enum := isArray(enum) ? enum.map(String) : undefined, deleted when empty
        enum :=
          match inputSchema.enum with
          | some [] => none
          | e => e
        properties :=
          match inputSchema.type, inputSchema.properties with
          | some "object", some props =>
            some (mapJsonSchemaPropertiesToGeminiParameterProps props)
          | _, _ => none
        items :=
          match inputSchema.type, inputSchema.items with
          | some "array", some it => some (mapJsonSchemaItemsToGeminiParameterItems it)
          | _, _ => none }
    .ok { name := tool.name ++ "_" ++ serverName
          description := (match tool.description with
            | none => "No description provided."
            | some "" => "No description provided."
            | some d => d)
          parameters := geminiParameters }

/-- Total mapping of one MCP tool to one Gemini function declaration: any
exception in the body is caught and converted to a synthetic broken-tool
entry that marks the qualified name and carries the error text. -/
def mapMcpToolToGeminiFunctionDeclaration (tool : McpTool) (serverName : String) :
    FunctionDeclaration :=
  match mapToolBody tool serverName with
  | .ok d => d
  | .error e =>
    { name := tool.name ++ "_" ++ serverName ++ "_mapping_error"
      description := "Error mapping tool: " ++ tool.name ++
        ". Please check the server's tool definition. Details: " ++ e
      parameters := { type := .OBJECT
                      description := none
                      required := none
                      enum := none
                      properties := some []
                      items := none } }

/-! ## JavaScript Map model

Association lists with JS `Map` semantics: `get` finds the first (unique)
binding, `set` replaces in place when the key is present and appends
otherwise (preserving insertion order), `delete` removes the binding. -/

def alGet {α β : Type} [BEq α] (l : List (α × β)) (k : α) : Option β :=
  (l.find? fun p => p.1 == k).map Prod.snd

def alHas {α β : Type} [BEq α] (l : List (α × β)) (k : α) : Bool :=
  l.any fun p => p.1 == k

def alSet {α β : Type} [BEq α] (l : List (α × β)) (k : α) (v : β) : List (α × β) :=
  match l with
  | [] => [(k, v)]
  | p :: ps => if p.1 == k then (k, v) :: ps else p :: alSet ps k v

def alDelete {α β : Type} [BEq α] (l : List (α × β)) (k : α) : List (α × β) :=
  match l with
  | [] => []
  | p :: ps => if p.1 == k then ps else p :: alDelete ps k

/-! ## Manager data model  (src/mcp/types.ts, src/mcp/mcpClientManager.ts)

`MCPConfigData` is the configuration without its `name` — the shape stored
in the `configJson` column (the code splits the `name` off with a rest
spread before the DB write and re-attaches it on load). -/

structure MCPConfigData where
  type : String
  command : Option String := none
  args : Option (List String) := none
  url : Option String := none
  env : Option (List (String × String)) := none
deriving DecidableEq, Repr

structure MCPConfig extends MCPConfigData where
  name : String
deriving DecidableEq, Repr

/-- JavaScript falsiness of an optional string field (`!config.command`):
true when the field is `undefined` or the empty string. -/
def optStrFalsy : Option String → Bool
  | none => true
  | some s => s = ""

/-- A live protocol client handle.  `id` identifies the underlying connect
attempt (fresh per construction); `connected` is what `isConnected()`
reports. -/
structure MCPClient where
  id : Nat
  connected : Bool
deriving DecidableEq, Repr

/-- The per-(tenant, serverName) registry entry: `{ config, client }`. -/
structure ServerEntry where
  config : MCPConfig
  client : Option MCPClient
deriving DecidableEq, Repr

abbrev UserClientsMap : Type := List (String × ServerEntry)

/-- One row of the `mcpConfig` Prisma table. The table has the composite
unique constraint `userId_name` (the code's `findUnique` and `deleteMany`
address rows by it). -/
structure McpConfigRow where
  userId : Nat
  name : String
  configJson : MCPConfigData
deriving DecidableEq, Repr

structure ManagerState where
  activeServers : List (Nat × UserClientsMap)
  store : List McpConfigRow
  nextClientId : Nat
deriving DecidableEq, Repr

/-- Outcomes of the external world: whether the n-th connect attempt
succeeds, whether closing a given client succeeds, and what `listTools()`
on a given client returns (or throws). -/
structure MCPEnv where
  connectOk : Nat → Bool
  closeOk : Nat → Bool
  listToolsResult : Nat → Except String (List McpTool)

/-- Observable effects, recorded in order. -/
inductive MCPEvent where
  | connectAttempt (userId : Nat) (serverName : String) (clientId : Nat) (ok : Bool)
  | closeClient (clientId : Nat) (ok : Bool)
  | dbFind (userId : Nat) (name : String)
  | dbCreate (userId : Nat) (name : String)
  | dbDelete (userId : Nat) (name : String)
  | warn (msg : String)
deriving DecidableEq, Repr

/-! ## Manager operations  (src/mcp/mcpClientManager.ts)

Each operation returns its result together with the successor state and
the list of emitted events. -/

/-- `removeServer(userId, serverName, triggerDbRemove)` (lines 79-116).
When the tenant map or the entry is missing it only warns and returns;
otherwise it best-effort-closes a live client, deletes the entry from the
registry and, when `triggerDbRemove`, issues the `deleteMany` on the
`(userId, name)` key. -/
def removeServer (env : MCPEnv) (st : ManagerState) (userId : Nat)
    (serverName : String) (triggerDbRemove : Bool) :
    ManagerState × List MCPEvent :=
  match alGet st.activeServers userId with
  | none => (st, [.warn "server not found, skipping removal"])
  | some userClients =>
    match alGet userClients serverName with
    | none => (st, [.warn "server not found, skipping removal"])
    | some serverEntry =>
      let closeEvents : List MCPEvent :=
        match serverEntry.client with
        | some c => [.closeClient c.id (env.closeOk c.id)]
        | none => []
      let st1 : ManagerState := { st with
        activeServers := alSet st.activeServers userId (alDelete userClients serverName) }
      if triggerDbRemove then
        ({ st1 with
           store := st1.store.filter fun r => !(r.userId == userId && r.name == serverName) },
         closeEvents ++ [.dbDelete userId serverName])
      else
        (st1, closeEvents)

/-- `addServer(userId, config)` (lines 44-77).  Validation throws on a
falsy name or type or on a missing transport-required field; an existing
same-named entry is removed (without touching the Store); the fresh
disconnected entry is inserted; then `db.mcpConfig.create` runs — which,
because of the `userId_name` unique constraint, throws when a row with the
same key is already persisted, upon which the catch deletes the new entry
and rethrows. -/
def addServer (env : MCPEnv) (st : ManagerState) (userId : Nat) (config : MCPConfig) :
    Except String Unit × ManagerState × List MCPEvent :=
  if config.name == "" || config.type == "" ||
     (config.type == "stdio" && optStrFalsy config.command) ||
     (config.type == "http" && optStrFalsy config.url) then
    (.error "Invalid MCP configuration format.", st, [])
  else
    let st1 : ManagerState :=
      if alHas st.activeServers userId then st
      else { st with activeServers := alSet st.activeServers userId [] }
    let userClients := (alGet st1.activeServers userId).getD []
    let removed : ManagerState × List MCPEvent :=
      if alHas userClients config.name then
        removeServer env st1 userId config.name false
      else (st1, [])
    let st2 := removed.1
    let userClients2 := (alGet st2.activeServers userId).getD []
    let userClients3 := alSet userClients2 config.name { config := config, client := none }
    let st3 : ManagerState :=
      { st2 with activeServers := alSet st2.activeServers userId userClients3 }
    if st3.store.any fun r => r.userId == userId && r.name == config.name then
      -- Prisma `create`: unique-constraint violation on (userId, name);
      -- the catch removes the optimistic entry and rethrows.
      let st4 : ManagerState := { st3 with
        activeServers := alSet st3.activeServers userId (alDelete userClients3 config.name) }
      (.error "Unique constraint failed on the fields: (userId,name)", st4,
       removed.2 ++ [.dbCreate userId config.name])
    else
      let row : McpConfigRow :=
        { userId := userId, name := config.name, configJson := config.toMCPConfigData }
      (.ok (), { st3 with store := st3.store ++ [row] },
       removed.2 ++ [.dbCreate userId config.name])

/-- `listServers(userId)` (lines 118-124). -/
def listServers (st : ManagerState) (userId : Nat) : List MCPConfig :=
  match alGet st.activeServers userId with
  | none => []
  | some userClients => userClients.map fun p => p.2.config

/-- Overwrite the `client` field of the registry entry for
`(userId, serverName)`, when it exists. -/
def setEntryClient (st : ManagerState) (userId : Nat) (serverName : String)
    (cl : Option MCPClient) : ManagerState :=
  match alGet st.activeServers userId with
  | none => st
  | some userClients =>
    match alGet userClients serverName with
    | none => st
    | some e =>
      { st with
        activeServers := alSet st.activeServers userId
                           (alSet userClients serverName { e with client := cl }) }

/-- The `try` block of `connectClientForUser` (lines 169-207): build the
transport (throwing on a missing command/url or an unsupported type, all
caught by the surrounding catch which nulls the handle and returns null),
construct a client, connect it; on success store the handle. -/
def freshConnect (env : MCPEnv) (st : ManagerState) (userId : Nat)
    (serverName : String) (config : MCPConfig) :
    Option MCPClient × ManagerState × List MCPEvent :=
  if (config.type == "stdio" && optStrFalsy config.command) ||
     (config.type == "http" && optStrFalsy config.url) ||
     (config.type != "stdio" && config.type != "http") then
    (none, setEntryClient st userId serverName none, [])
  else
    let cid := st.nextClientId
    let st1 : ManagerState := { st with nextClientId := cid + 1 }
    if env.connectOk cid then
      let client : MCPClient := { id := cid, connected := true }
      (some client, setEntryClient st1 userId serverName (some client),
       [.connectAttempt userId serverName cid true])
    else
      (none, setEntryClient st1 userId serverName none,
       [.connectAttempt userId serverName cid false])

/-- `connectClientForUser` once the entry is present (lines 155-207): a
handle reporting connected is returned as-is; a handle reporting
disconnected is best-effort-closed and cleared before a fresh connect. -/
def connectEntry (env : MCPEnv) (st : ManagerState) (userId : Nat)
    (serverName : String) (serverEntry : ServerEntry) :
    Option MCPClient × ManagerState × List MCPEvent :=
  match serverEntry.client with
  | some c =>
    if c.connected then
      (some c, st, [])
    else
      let st1 := setEntryClient st userId serverName none
      let r := freshConnect env st1 userId serverName serverEntry.config
      (r.1, r.2.1, .closeClient c.id (env.closeOk c.id) :: r.2.2)
  | none => freshConnect env st userId serverName serverEntry.config

/-- `connectClientForUser(userId, serverName)` (lines 126-208).  A missing
entry falls back to a Store `findUnique`; a found row is adopted into the
registry as a disconnected entry and the method recurses — the recursion
immediately hits the entry-present path, inlined here as `connectEntry`. -/
def connectClientForUser (env : MCPEnv) (st : ManagerState) (userId : Nat)
    (serverName : String) : Option MCPClient × ManagerState × List MCPEvent :=
  match (alGet st.activeServers userId).bind (fun m => alGet m serverName) with
  | some serverEntry => connectEntry env st userId serverName serverEntry
  | none =>
    match st.store.find? fun r => r.userId == userId && r.name == serverName with
    | none => (none, st, [.dbFind userId serverName, .warn "config not found in DB"])
    | some row =>
      let config : MCPConfig := { toMCPConfigData := row.configJson, name := row.name }
      let st1 : ManagerState :=
        if alHas st.activeServers userId then st
        else { st with activeServers := alSet st.activeServers userId [] }
      let userClients := (alGet st1.activeServers userId).getD []
      let entry : ServerEntry := { config := config, client := none }
      let st2 : ManagerState := { st1 with
        activeServers := alSet st1.activeServers userId (alSet userClients config.name entry) }
      let r := connectEntry env st2 userId serverName entry
      (r.1, r.2.1, .dbFind userId serverName :: r.2.2)

/-- The body of `getTools`' `for`-loop over the snapshot of the tenant's
server names (lines 217-237): connect, skip with a warning when
unavailable, list tools (a throw is caught and the server skipped) and map
each tool. -/
def getToolsLoop (env : MCPEnv) (userId : Nat) :
    List String → ManagerState → List FunctionDeclaration × ManagerState × List MCPEvent
  | [], st => ([], st, [])
  | serverName :: rest, st =>
    let c := connectClientForUser env st userId serverName
    let step : List FunctionDeclaration × ManagerState × List MCPEvent :=
      match c.1 with
      | none => ([], c.2.1, c.2.2 ++ [.warn "client not connected, skipping tools"])
      | some client =>
        if client.connected then
          match env.listToolsResult client.id with
          | .error e => ([], c.2.1, c.2.2 ++ [.warn e])
          | .ok mcpTools =>
            if mcpTools.length > 0 then
              (mcpTools.map fun t => mapMcpToolToGeminiFunctionDeclaration t serverName,
               c.2.1, c.2.2)
            else ([], c.2.1, c.2.2)
        else ([], c.2.1, c.2.2 ++ [.warn "client not connected, skipping tools"])
    let restResult := getToolsLoop env userId rest step.2.1
    (step.1 ++ restResult.1, restResult.2.1, step.2.2 ++ restResult.2.2)

/-- `getTools(userId)` (lines 210-239): an absent tenant map yields the
empty catalog at once; otherwise every configured server of the tenant is
visited in insertion order. -/
def getTools (env : MCPEnv) (st : ManagerState) (userId : Nat) :
    List FunctionDeclaration × ManagerState × List MCPEvent :=
  match alGet st.activeServers userId with
  | none => ([], st, [])
  | some userClientsMap =>
    getToolsLoop env userId (userClientsMap.map Prod.fst) st

/-- The clients whose close `closeAll` will attempt, in sweep order. -/
def liveClients (st : ManagerState) : List MCPClient :=
  (st.activeServers.map fun p => p.2.filterMap fun q => q.2.client).flatten

/-- `serverEntry.client = null`, applied to a binding during the sweep. -/
def nullifyEntry (q : String × ServerEntry) : String × ServerEntry :=
  (q.1, { q.2 with client := none })

def nullifyRegistry (reg : List (Nat × UserClientsMap)) : List (Nat × UserClientsMap) :=
  reg.map fun p => (p.1, p.2.map nullifyEntry)

/-- `closeAll()` (lines 266-283): push a caught close for every live
client and null every handle.  The registry maps stay in place. -/
def closeAll (env : MCPEnv) (st : ManagerState) : ManagerState × List MCPEvent :=
  ({ st with activeServers := nullifyRegistry st.activeServers },
   (liveClients st).map fun c => .closeClient c.id (env.closeOk c.id))

/-- `true` exactly when no registry entry holds a connection handle. -/
def allClientsClosed (st : ManagerState) : Bool :=
  st.activeServers.all fun p => p.2.all fun q => q.2.client.isNone

/-- A configuration whose transport-required field is present, so that the
transport construction inside the connect `try` block does not throw. -/
def validTransport (c : MCPConfig) : Bool :=
  (c.type == "stdio" && !optStrFalsy c.command) ||
  (c.type == "http" && !optStrFalsy c.url)

/-! ## Concrete instances used by witnesses and counterexamples -/

/-- An environment where every connect and close succeeds and every server
reports an empty tool list. -/
def env0 : MCPEnv :=
  { connectOk := fun _ => true
    closeOk := fun _ => true
    listToolsResult := fun _ => .ok [] }

def cfgOldData : MCPConfigData := { type := "stdio", command := some "old-cmd" }

def cfgOld : MCPConfig := { toMCPConfigData := cfgOldData, name := "srv" }

def cfgNew : MCPConfig :=
  { toMCPConfigData := { type := "stdio", command := some "new-cmd" }, name := "srv" }

/-- Tenant 1 has the server "srv" persisted in the Store and live in the
registry with a connected client of id 0. -/
def stLive : ManagerState :=
  { activeServers :=
      [(1, [("srv", { config := cfgOld, client := some { id := 0, connected := true } })])]
    store := [{ userId := 1, name := "srv", configJson := cfgOldData }]
    nextClientId := 1 }

/-- Tenant 1 has the server "srv" configured (registry and Store) but not
connected. -/
def stConfigured : ManagerState :=
  { activeServers := [(1, [("srv", { config := cfgOld, client := none })])]
    store := [{ userId := 1, name := "srv", configJson := cfgOldData }]
    nextClientId := 5 }

/-- Tenant 7 has a configuration persisted in the Store but no registry
entries at all. -/
def stStoreOnly : ManagerState :=
  { activeServers := []
    store := [{ userId := 7, name := "srv", configJson := cfgOldData }]
    nextClientId := 0 }

/-- A schema object with every field absent. -/
def schemaEmpty : SchemaObj := .mk none none none none none none

/-- A tool whose name itself contains an underscore. -/
def toolListFiles : McpTool :=
  { name := "list_files", description := none, inputSchema := some schemaEmpty }

/-- A tool whose input schema is absent: mapping it throws on the first
property access. -/
def toolBroken : McpTool :=
  { name := "broken", description := some "d", inputSchema := none }

def cfgHttpGood : MCPConfig :=
  { toMCPConfigData := { type := "http", url := some "http://localhost:1234" }, name := "good" }

/-- The §8 scenario of the spec: tenant 42 has a stdio server that fails
to spawn and an http server that connects; the latter exposes one tool. -/
def envScenario : MCPEnv :=
  { connectOk := fun n => n != 5
    closeOk := fun _ => true
    listToolsResult := fun _ =>
      .ok [{ name := "t1", description := some "d",
             inputSchema := some (.mk (some "object") none none none none none) }] }

def stScenario : ManagerState :=
  { activeServers :=
      [(42, [("bad", { config := { toMCPConfigData := cfgOldData, name := "bad" }, client := none }),
             ("good", { config := cfgHttpGood, client := none })])]
    store := []
    nextClientId := 5 }

end McpModel

namespace McpModel

/-! ## Helper lemmas -/

theorem splitOnChar_ne_nil (sep : Char) (l : List Char) : splitOnChar sep l ≠ [] := by
  cases l with
  | nil => simp [splitOnChar]
  | cons c cs =>
    simp only [splitOnChar]
    split
    · simp
    · split
      · simp
      · simp

theorem splitOnChar_append (sep : Char) (xs ys : List Char) :
    splitOnChar sep (xs ++ sep :: ys) = splitOnChar sep xs ++ splitOnChar sep ys := by
  induction xs with
  | nil => simp [splitOnChar]
  | cons c cs ih =>
    by_cases hc : c = sep
    · subst hc
      simp [splitOnChar, ih]
    · simp only [List.cons_append, splitOnChar, hc, if_false]
      rw [show (cs.append (sep :: ys)) = cs ++ sep :: ys from rfl, ih]
      cases h : splitOnChar sep cs with
      | nil => exact absurd h (splitOnChar_ne_nil sep cs)
      | cons r rs => simp [h]

theorem splitOnChar_of_not_mem (sep : Char) (ys : List Char) (h : sep ∉ ys) :
    splitOnChar sep ys = [ys] := by
  induction ys with
  | nil => simp [splitOnChar]
  | cons c cs ih =>
    simp only [List.mem_cons, not_or] at h
    have hc : ¬ c = sep := fun hcc => h.1 hcc.symm
    simp only [splitOnChar, hc, if_false, ih h.2]

theorem joinChar_splitOnChar (sep : Char) (l : List Char) :
    joinChar sep (splitOnChar sep l) = l := by
  induction l with
  | nil => simp [splitOnChar, joinChar]
  | cons c cs ih =>
    by_cases hc : c = sep
    · subst hc
      simp only [splitOnChar, if_pos]
      cases h : splitOnChar c cs with
      | nil => exact absurd h (splitOnChar_ne_nil c cs)
      | cons r rs =>
        rw [h] at ih
        simp [joinChar, ih]
    · simp only [splitOnChar, hc, if_false]
      cases h : splitOnChar sep cs with
      | nil => exact absurd h (splitOnChar_ne_nil sep cs)
      | cons r rs =>
        rw [h] at ih
        cases rs with
        | nil => simpa [joinChar] using ih
        | cons r2 rs2 => simpa [joinChar] using ih

theorem callToolDecode_encode (t s : String) (h : '_' ∉ s.data) :
    callToolDecode (t ++ "_" ++ s) = some (t, s) := by
  have hdata : (t ++ "_" ++ s).data = t.data ++ '_' :: s.data := by
    simp [String.data_append]
  unfold callToolDecode
  rw [hdata, splitOnChar_append, splitOnChar_of_not_mem _ _ h]
  have hne := splitOnChar_ne_nil '_' t.data
  have hlen : ¬ (splitOnChar '_' t.data ++ [s.data]).length < 2 := by
    cases hsp : splitOnChar '_' t.data with
    | nil => exact absurd hsp hne
    | cons a l => simp [List.length_append]
  rw [if_neg hlen, List.dropLast_concat, List.getLastD_concat, joinChar_splitOnChar]

theorem alGet_alSet_self {α β : Type} [BEq α] [LawfulBEq α]
    (l : List (α × β)) (k : α) (v : β) : alGet (alSet l k v) k = some v := by
  induction l with
  | nil => simp [alGet, alSet, List.find?]
  | cons p ps ih =>
    by_cases h : p.1 == k
    · simp [alSet, h, alGet, List.find?]
    · simp only [alSet, h, if_false]
      simpa [alGet, List.find?, h] using ih

theorem transport_guard_of_valid {c : MCPConfig} (h : validTransport c = true) :
    ((c.type == "stdio" && optStrFalsy c.command) ||
     (c.type == "http" && optStrFalsy c.url) ||
     (c.type != "stdio" && c.type != "http")) = false := by
  unfold validTransport at h
  simp only [Bool.or_eq_true, Bool.and_eq_true, Bool.not_eq_true'] at h
  rcases h with ⟨h1, h2⟩ | ⟨h1, h2⟩
  · have ht : c.type = "stdio" := by simpa using h1
    simp [ht, h2]
  · have ht : c.type = "http" := by simpa using h1
    simp [ht, h2]

/-! ## Claims -/

/-- Claim C1: for every tool name t (which may itself contain underscores)
and every server name s containing no underscore, the catalog emits the
qualified name t_s, and the callTool decoding (split on the underscore,
last segment is the server, remainder rejoined) recovers exactly (t, s). -/
theorem claim1_qualifiedNameRoundTrip (t s : String) (hs : '_' ∉ s.data)
    (tool : McpTool) (sch : SchemaObj) (hname : tool.name = t)
    (hschema : tool.inputSchema = some sch) :
    (mapMcpToolToGeminiFunctionDeclaration tool s).name = t ++ "_" ++ s ∧
    callToolDecode (t ++ "_" ++ s) = some (t, s) := by
  constructor
  · simp [mapMcpToolToGeminiFunctionDeclaration, mapToolBody, hschema, hname]
  · exact callToolDecode_encode t s hs

theorem claim1_witness :
    (mapMcpToolToGeminiFunctionDeclaration toolListFiles "fs").name =
      "list_files" ++ "_" ++ "fs" ∧
    callToolDecode ("list_files" ++ "_" ++ "fs") = some ("list_files", "fs") :=
  claim1_qualifiedNameRoundTrip "list_files" "fs" (by decide)
    toolListFiles schemaEmpty rfl rfl

/-- Claim C2 is refuted on the code: when the entry already holds a handle
that reports connected, connectClientForUser returns exactly that
pre-existing handle, with no close and no rebuild (the state is unchanged
and no event is emitted). -/
theorem claim2_counterexample :
    (connectClientForUser env0 stLive 1 "srv").1 = some { id := 0, connected := true } ∧
    (connectClientForUser env0 stLive 1 "srv").2.1 = stLive ∧
    (connectClientForUser env0 stLive 1 "srv").2.2 = [] :=
  ⟨rfl, rfl, rfl⟩

/-- Claim C2 (amended): connectClientForUser returns a handle that reports
connected unchanged, with no close and no rebuild; only when the held
handle reports disconnected does it close it best-effort, clear it, and
build a fresh transport and connection. -/
theorem claim2_amended_reuseOrRebuild (env : MCPEnv) (st : ManagerState)
    (userId : Nat) (serverName : String) (m : UserClientsMap)
    (e : ServerEntry) (c : MCPClient)
    (hm : alGet st.activeServers userId = some m)
    (he : alGet m serverName = some e) (hc : e.client = some c) :
    (c.connected = true →
      connectClientForUser env st userId serverName = (some c, st, [])) ∧
    (c.connected = false → validTransport e.config = true →
      env.connectOk st.nextClientId = true →
      (connectClientForUser env st userId serverName).1 =
        some { id := st.nextClientId, connected := true } ∧
      (connectClientForUser env st userId serverName).2.2 =
        [.closeClient c.id (env.closeOk c.id),
         .connectAttempt userId serverName st.nextClientId true]) := by
  constructor
  · intro hcon
    simp [connectClientForUser, hm, he, connectEntry, hc, hcon]
  · intro hcon hv hok
    have hguard := transport_guard_of_valid hv
    constructor
    · simp [connectClientForUser, hm, he, connectEntry, hc, hcon,
            freshConnect, hguard, setEntryClient, hok]
    · simp [connectClientForUser, hm, he, connectEntry, hc, hcon,
            freshConnect, hguard, setEntryClient, hok]

theorem claim2_amended_witness :
    connectClientForUser env0 stLive 1 "srv" =
      (some { id := 0, connected := true }, stLive, []) :=
  (claim2_amended_reuseOrRebuild env0 stLive 1 "srv"
      [("srv", { config := cfgOld, client := some { id := 0, connected := true } })]
      { config := cfgOld, client := some { id := 0, connected := true } }
      { id := 0, connected := true } rfl rfl rfl).1 rfl

/-- Claim C3: starting from a configured entry, two sequential calls of
connectClientForUser for the same (tenant, serverName) issue exactly one
underlying connect: the first call emits a single connect attempt; the
second call returns the same connection with no further event and leaves
the state unchanged. -/
theorem claim3_sequentialConnectIdempotence (env : MCPEnv) (st : ManagerState)
    (userId : Nat) (serverName : String) (m : UserClientsMap) (config : MCPConfig)
    (hm : alGet st.activeServers userId = some m)
    (he : alGet m serverName = some { config := config, client := none })
    (hv : validTransport config = true)
    (hok : env.connectOk st.nextClientId = true) :
    (connectClientForUser env st userId serverName).2.2 =
      [.connectAttempt userId serverName st.nextClientId true] ∧
    (connectClientForUser env st userId serverName).1 =
      some { id := st.nextClientId, connected := true } ∧
    connectClientForUser env (connectClientForUser env st userId serverName).2.1
        userId serverName =
      ((connectClientForUser env st userId serverName).1,
       (connectClientForUser env st userId serverName).2.1, []) := by
  have hguard := transport_guard_of_valid hv
  have h1 : connectClientForUser env st userId serverName =
      (some { id := st.nextClientId, connected := true },
       { st with
         nextClientId := st.nextClientId + 1
         activeServers := alSet st.activeServers userId
           (alSet m serverName
             { config := config, client := some { id := st.nextClientId, connected := true } }) },
       [.connectAttempt userId serverName st.nextClientId true]) := by
    simp [connectClientForUser, hm, he, connectEntry, freshConnect, hguard,
          setEntryClient, hok]
  refine ⟨by rw [h1], by rw [h1], ?_⟩
  rw [h1]
  simp [connectClientForUser, alGet_alSet_self, connectEntry]

theorem claim3_witness :
    (connectClientForUser env0 stConfigured 1 "srv").2.2 =
      [.connectAttempt 1 "srv" 5 true] ∧
    (connectClientForUser env0 stConfigured 1 "srv").1 =
      some { id := 5, connected := true } ∧
    connectClientForUser env0 (connectClientForUser env0 stConfigured 1 "srv").2.1
        1 "srv" =
      ((connectClientForUser env0 stConfigured 1 "srv").1,
       (connectClientForUser env0 stConfigured 1 "srv").2.1, []) :=
  claim3_sequentialConnectIdempotence env0 stConfigured 1 "srv"
    [("srv", { config := cfgOld, client := none })] cfgOld rfl rfl (by decide) rfl

/-- Claim C4 is what the spec intends, but the code slips: addServer
writes with a plain create instead of an upsert, so when the tenant
already has a row with the same name persisted, the unique constraint on
(userId, name) makes the write throw; the catch then deletes the fresh
registry entry and rethrows.  Evaluated at the failing input: the call
errors, the Store keeps the old configuration, and listServers afterwards
no longer returns the name at all. -/
theorem claim4_addServer_duplicate_create_fails :
    (addServer env0 stLive 1 cfgNew).1 =
      .error "Unique constraint failed on the fields: (userId,name)" ∧
    (addServer env0 stLive 1 cfgNew).2.1.store =
      [{ userId := 1, name := "srv", configJson := cfgOldData }] ∧
    listServers (addServer env0 stLive 1 cfgNew).2.1 1 = [] ∧
    (addServer env0 stLive 1 cfgNew).2.2 =
      [.closeClient 0 true, .dbCreate 1 "srv"] :=
  ⟨rfl, rfl, rfl, rfl⟩

/-- Claim C5: a configuration missing its transport-required field
(command for stdio, url for http) makes addServer fail with the
configuration-invalid error before any mutation: the state (Store and
Registry) is returned unchanged, no event is emitted, and listServers is
unchanged for every tenant. -/
theorem claim5_addServerValidationAtomicity (env : MCPEnv) (st : ManagerState)
    (userId : Nat) (config : MCPConfig)
    (h : (config.type = "stdio" ∧ optStrFalsy config.command = true) ∨
         (config.type = "http" ∧ optStrFalsy config.url = true)) :
    addServer env st userId config =
      (.error "Invalid MCP configuration format.", st, []) ∧
    ∀ u : Nat, listServers (addServer env st userId config).2.1 u = listServers st u := by
  have hcond : (config.name == "" || config.type == "" ||
      (config.type == "stdio" && optStrFalsy config.command) ||
      (config.type == "http" && optStrFalsy config.url)) = true := by
    rcases h with ⟨h1, h2⟩ | ⟨h1, h2⟩ <;> simp [h1, h2]
  have hmain : addServer env st userId config =
      (.error "Invalid MCP configuration format.", st, []) := by
    unfold addServer
    rw [hcond]
    simp
  exact ⟨hmain, fun u => by rw [hmain]⟩

theorem claim5_witness :
    addServer env0 stLive 1
        { toMCPConfigData := { type := "stdio" }, name := "nocmd" } =
      (.error "Invalid MCP configuration format.", stLive, []) :=
  (claim5_addServerValidationAtomicity env0 stLive 1
    { toMCPConfigData := { type := "stdio" }, name := "nocmd" }
    (Or.inl ⟨rfl, rfl⟩)).1

/-- Claim C9: a tool whose schema mapping throws (here: an absent input
schema, whose first property access throws) is emitted as a synthetic
broken-tool entry - qualified name plus the marker suffix, description
carrying the error - instead of being dropped or failing the catalog;
sibling tools in the same catalog map independently and correctly; and an
unrecognized schema type string falls back to the string type instead of
erroring. -/
theorem claim9_brokenToolContainment (serverName : String) (bad : McpTool)
    (hbad : bad.inputSchema = none) :
    (mapMcpToolToGeminiFunctionDeclaration bad serverName).name =
      bad.name ++ "_" ++ serverName ++ "_mapping_error" ∧
    (mapMcpToolToGeminiFunctionDeclaration bad serverName).description =
      "Error mapping tool: " ++ bad.name ++
        ". Please check the server's tool definition. Details: " ++
        "Cannot read properties of undefined (reading type)" ∧
    (∀ pre post : List McpTool,
      (pre ++ bad :: post).map
          (fun t => mapMcpToolToGeminiFunctionDeclaration t serverName) =
        pre.map (fun t => mapMcpToolToGeminiFunctionDeclaration t serverName) ++
          mapMcpToolToGeminiFunctionDeclaration bad serverName ::
            post.map (fun t => mapMcpToolToGeminiFunctionDeclaration t serverName)) ∧
    (∀ ty : String, ty ≠ "string" → ty ≠ "number" → ty ≠ "integer" →
      ty ≠ "boolean" → ty ≠ "array" → ty ≠ "object" →
      mapJsonSchemaTypeToGeminiType (some ty) = .STRING) := by
  refine ⟨?_, ?_, ?_, ?_⟩
  · simp [mapMcpToolToGeminiFunctionDeclaration, mapToolBody, hbad]
  · simp [mapMcpToolToGeminiFunctionDeclaration, mapToolBody, hbad]
  · intro pre post
    simp
  · intro ty h1 h2 h3 h4 h5 h6
    simp [mapJsonSchemaTypeToGeminiType, h1, h2, h3, h4, h5, h6]

theorem claim9_witness :
    (mapMcpToolToGeminiFunctionDeclaration toolBroken "srv").name =
      "broken" ++ "_" ++ "srv" ++ "_mapping_error" ∧
    [toolListFiles, toolBroken].map
        (fun t => mapMcpToolToGeminiFunctionDeclaration t "srv") =
      [mapMcpToolToGeminiFunctionDeclaration toolListFiles "srv",
       mapMcpToolToGeminiFunctionDeclaration toolBroken "srv"] ∧
    mapJsonSchemaTypeToGeminiType (some "frobnicate") = .STRING :=
  ⟨(claim9_brokenToolContainment "srv" toolBroken rfl).1,
   (claim9_brokenToolContainment "srv" toolBroken rfl).2.2.1 [toolListFiles] [],
   (claim9_brokenToolContainment "srv" toolBroken rfl).2.2.2 "frobnicate"
     (by decide) (by decide) (by decide) (by decide) (by decide) (by decide)⟩

/-- Claim C10: removeServer for a (tenant, name) with no registry entry
returns normally after only a warning: the state - Registry and Store
alike - is returned unchanged, and no close and no Store deletion happens,
even with alsoDeleteFromStore set. -/
theorem claim10_removeServerNoEntryNoop (env : MCPEnv) (st : ManagerState)
    (userId : Nat) (serverName : String)
    (h : (alGet st.activeServers userId).bind (fun m => alGet m serverName) = none) :
    removeServer env st userId serverName true =
      (st, [.warn "server not found, skipping removal"]) := by
  unfold removeServer
  cases hm : alGet st.activeServers userId with
  | none => rfl
  | some m =>
    rw [hm] at h
    simp only [Option.some_bind] at h
    simp only [h]

theorem claim10_witness :
    removeServer env0 stStoreOnly 7 "srv" true =
      (stStoreOnly, [.warn "server not found, skipping removal"]) :=
  claim10_removeServerNoEntryNoop env0 stStoreOnly 7 "srv" rfl

theorem alGet_map_snd {α β γ : Type} [BEq α] (l : List (α × β)) (f : β → γ) (k : α) :
    alGet (l.map fun p => (p.1, f p.2)) k = (alGet l k).map f := by
  induction l with
  | nil => rfl
  | cons p ps ih =>
    by_cases h : p.1 == k
    · simp [alGet, List.find?, h]
    · simp only [List.map_cons]
      simpa [alGet, List.find?, h] using ih

theorem nullifyEntry_idem (q : String × ServerEntry) :
    nullifyEntry (nullifyEntry q) = nullifyEntry q := rfl

theorem nullifyRegistry_idem (reg : List (Nat × UserClientsMap)) :
    nullifyRegistry (nullifyRegistry reg) = nullifyRegistry reg := by
  simp only [nullifyRegistry, List.map_map]
  refine List.map_congr_left fun p _ => ?_
  simp only [Function.comp_apply, List.map_map]
  refine congrArg _ (List.map_congr_left fun q _ => nullifyEntry_idem q)

theorem liveClients_nullify (st : ManagerState) :
    liveClients { st with activeServers := nullifyRegistry st.activeServers } = [] := by
  simp only [liveClients, nullifyRegistry, List.map_map]
  rw [List.flatten_eq_nil_iff]
  intro l hl
  simp only [List.mem_map] at hl
  obtain ⟨p, _, hp⟩ := hl
  subst hp
  simp only [Function.comp_apply]
  rw [List.filterMap_map]
  refine List.filterMap_eq_nil_iff.mpr fun q _ => rfl

/-- Claim C7 is refuted on the code in its registry-empty conjunct:
closeAll nulls every handle but never clears the registry, so after
closeAll on a state with one live entry the registry still holds that
tenant and entry. -/
theorem claim7_counterexample :
    (closeAll env0 stLive).1.activeServers =
      [(1, [("srv", { config := cfgOld, client := none })])] ∧
    (closeAll env0 stLive).1.activeServers ≠ [] :=
  ⟨rfl, by decide⟩

/-- Claim C7 (amended): after closeAll, every entry of the registry has
its connection handle cleared, close was attempted on exactly the
previously-live connections (in sweep order, each close failure caught
without aborting the sweep), the registry keeps every tenant and its
configurations (it is not emptied), and a second closeAll is an event-free
no-op. -/
theorem claim7_amended_closeAll (env : MCPEnv) (st : ManagerState) :
    allClientsClosed (closeAll env st).1 = true ∧
    (closeAll env st).2 =
      (liveClients st).map (fun c => .closeClient c.id (env.closeOk c.id)) ∧
    (∀ u : Nat, listServers (closeAll env st).1 u = listServers st u) ∧
    closeAll env (closeAll env st).1 = ((closeAll env st).1, []) := by
  refine ⟨?_, rfl, ?_, ?_⟩
  · simp only [closeAll, allClientsClosed, nullifyRegistry, nullifyEntry, List.all_map]
    rw [List.all_eq_true]
    intro p _
    simp only [Function.comp_apply, List.all_map]
    rw [List.all_eq_true]
    intro q _
    rfl
  · intro u
    simp only [closeAll, listServers, nullifyRegistry]
    rw [alGet_map_snd]
    cases alGet st.activeServers u with
    | none => rfl
    | some m =>
      simp only [Option.map_some', List.map_map]
      refine List.map_congr_left fun q _ => rfl
  · simp only [closeAll]
    rw [liveClients_nullify, nullifyRegistry_idem]
    simp

/-- Claim C8 is refuted on the code: for a tenant whose configurations are
persisted in the Store but who has no registry entries, getTools returns
the empty catalog at once - no Store read happens (no event at all) and
the state is unchanged, although the Store holds a configuration. -/
theorem claim8_counterexample :
    stStoreOnly.store = [{ userId := 7, name := "srv", configJson := cfgOldData }] ∧
    getTools env0 stStoreOnly 7 = ([], stStoreOnly, []) :=
  ⟨rfl, rfl⟩

/-- Claim C8 (amended): for a tenant with no entries in the in-memory
registry, getTools returns the empty catalog immediately without
consulting the Store; the Store-reload fallback exists only inside
connectClientForUser for one named server missing from the registry. -/
theorem claim8_amended_getToolsNoRegistry (env : MCPEnv) (st : ManagerState)
    (userId : Nat) (h : alGet st.activeServers userId = none) :
    getTools env st userId = ([], st, []) := by
  simp [getTools, h]

theorem claim8_amended_witness :
    getTools env0 stStoreOnly 42 = ([], stStoreOnly, []) :=
  claim8_amended_getToolsNoRegistry env0 stStoreOnly 42 rfl

/-- Claim C6: with two configured servers for a tenant, one whose connect
fails and one that connects and lists its tools, getTools skips exactly
the failing server with one warning and still returns the correctly
mapped tools of the other server; no error escapes to the caller (the
failing connect is absorbed into a skip). -/
theorem claim6_getToolsPartialAvailability (env : MCPEnv) (st : ManagerState)
    (userId : Nat) (nA nB : String) (cfgA cfgB : MCPConfig) (ts : List McpTool)
    (hne : (nA == nB) = false)
    (hm : alGet st.activeServers userId =
      some [(nA, { config := cfgA, client := none }),
            (nB, { config := cfgB, client := none })])
    (hvA : validTransport cfgA = true) (hvB : validTransport cfgB = true)
    (hfail : env.connectOk st.nextClientId = false)
    (hok : env.connectOk (st.nextClientId + 1) = true)
    (hlist : env.listToolsResult (st.nextClientId + 1) = .ok ts) :
    (getTools env st userId).1 =
      ts.map (fun t => mapMcpToolToGeminiFunctionDeclaration t nB) ∧
    (getTools env st userId).2.2 =
      [.connectAttempt userId nA st.nextClientId false,
       .warn "client not connected, skipping tools",
       .connectAttempt userId nB (st.nextClientId + 1) true] := by
  have hgA := transport_guard_of_valid hvA
  have hgB := transport_guard_of_valid hvB
  have hgetA : alGet [(nA, ServerEntry.mk cfgA none), (nB, ServerEntry.mk cfgB none)] nA =
      some (ServerEntry.mk cfgA none) := by
    simp [alGet, List.find?]
  have hgetB : alGet [(nA, ServerEntry.mk cfgA none), (nB, ServerEntry.mk cfgB none)] nB =
      some (ServerEntry.mk cfgB none) := by
    simp [alGet, List.find?, hne]
  have hsetA : alSet [(nA, ServerEntry.mk cfgA none), (nB, ServerEntry.mk cfgB none)] nA
      (ServerEntry.mk cfgA none) =
      [(nA, ServerEntry.mk cfgA none), (nB, ServerEntry.mk cfgB none)] := by
    simp [alSet]
  have hself : ∀ v : UserClientsMap,
      alGet (alSet st.activeServers userId v) userId = some v := fun v =>
    alGet_alSet_self st.activeServers userId v
  cases ts with
  | nil =>
    constructor
    · simp [getTools, hm, getToolsLoop, connectClientForUser, connectEntry,
            freshConnect, setEntryClient, hgA, hgB, hgetA, hgetB, hsetA, hself,
            hfail, hok, hlist]
    · simp [getTools, hm, getToolsLoop, connectClientForUser, connectEntry,
            freshConnect, setEntryClient, hgA, hgB, hgetA, hgetB, hsetA, hself,
            hfail, hok, hlist]
  | cons t0 rest =>
    constructor
    · simp [getTools, hm, getToolsLoop, connectClientForUser, connectEntry,
            freshConnect, setEntryClient, hgA, hgB, hgetA, hgetB, hsetA, hself,
            hfail, hok, hlist]
    · simp [getTools, hm, getToolsLoop, connectClientForUser, connectEntry,
            freshConnect, setEntryClient, hgA, hgB, hgetA, hgetB, hsetA, hself,
            hfail, hok, hlist]

theorem claim6_witness :
    (getTools envScenario stScenario 42).1 =
      [{ name := "t1", description := some "d",
         inputSchema := some (.mk (some "object") none none none none none) }].map
        (fun t => mapMcpToolToGeminiFunctionDeclaration t "good") ∧
    (getTools envScenario stScenario 42).2.2 =
      [.connectAttempt 42 "bad" 5 false,
       .warn "client not connected, skipping tools",
       .connectAttempt 42 "good" 6 true] :=
  claim6_getToolsPartialAvailability envScenario stScenario 42 "bad" "good"
    { toMCPConfigData := cfgOldData, name := "bad" } cfgHttpGood
    [{ name := "t1", description := some "d",
       inputSchema := some (.mk (some "object") none none none none none) }]
    rfl rfl rfl rfl rfl rfl rfl

end McpModel
